import Mathlib

/-!
Verification of the `prefect-cubejs` polling client

Shallow embedding of the authenticated polling client of the
`prefect-cubejs` repository:

* `src/prefect_cubejs/utils.py` — `CubeJSClient` (endpoint resolution,
  the continue-wait polling loop `_get_data_from_url`, `get_data`);
* `src/prefect_cubejs/tasks.py` — `run_query` wait coercion and the
  `build_pre_aggregations` job-status aggregation loop;
* `src/prefect_cubejs/blocks.py` — `AuthHeader.api_token`.

Python dictionaries are modelled as association lists with unique keys in
insertion order; JSON leaf values that the client only passes through are
modelled as opaque `String`s.  Network traffic is modelled by a script
(list) of responses consumed in order; sleeping is modelled by an
accumulator of slept seconds.
-/

namespace PrefectCubejs

/-! ## Python-style primitives -/

/-- Boolean prefix test on char lists (`List.isPrefixOf` specialised). -/
def prefixB : List Char → List Char → Bool
  | [], _ => true
  | _ :: _, [] => false
  | a :: as, b :: bs => a == b && prefixB as bs

/-- Contiguous-sublist test on char lists.  `infixAux n h` is true iff `n`
occurs contiguously in `h` (an empty needle always occurs).  This models
Python's substring operators `x in s` and `s.find(x) >= 0`. -/
def infixAux (n : List Char) : List Char → Bool
  | [] => prefixB n []
  | c :: cs => prefixB n (c :: cs) || infixAux n cs

/-- Python `needle in hay` / `hay.find(needle) >= 0` on strings. -/
def pyIn (needle hay : String) : Bool :=
  infixAux needle.data hay.data

/-- A Python `dict` with string keys whose values the client treats as
opaque payload, modelled as an association list in insertion order. -/
abbrev Dict := List (String × String)

/-- Python `d[k]` lookup (first, and by the unique-key invariant only,
binding). -/
def dictGet (k : String) : Dict → Option String
  | [] => none
  | (k', v) :: rest => if k' == k then some v else dictGet k rest

/-- Python `k in d`. -/
def hasKey (k : String) (d : Dict) : Bool :=
  (dictGet k d).isSome

/-- Python `d[k] = v`: replace the binding in place when the key exists,
otherwise append the new binding (insertion order). -/
def dictSet (k v : String) : Dict → Dict
  | [] => [(k, v)]
  | (k', v') :: rest =>
      if k' == k then (k, v) :: rest else (k', v') :: dictSet k v rest

/-- Python truthiness of the optional integer `max_wait_time`:
`None` and `0` are falsy, every other integer is truthy. -/
def pyTruthy : Option Int → Bool
  | none => false
  | some v => v != 0

/-- Python `str(...)` of an optional integer (`None` prints as `"None"`). -/
def pyStr : Option Int → String
  | none => "None"
  | some v => toString v

/-! ## Endpoint resolution (`utils.py`, `CubeJSClient._get_cube_base_url`
and the three `_get_*_api_url` methods)

The constructor arguments `subdomain` and `url` are optional strings; the
source tests `if self.subdomain:`, i.e. Python truthiness, under which
`None` and `""` coincide. -/

/-- Python truthiness of an optional string. -/
def pyStrTruthy : Option String → Bool
  | none => false
  | some s => s != ""

/-- `CubeJSClient.__CUBEJS_CLOUD_BASE_URL` with `{subdomain}` filled in. -/
def cubejsCloudBaseUrl (subdomain : String) : String :=
  "https://" ++ subdomain ++ ".cubecloud.dev"

/-- `CubeJSClient._get_cube_base_url`. -/
def getCubeBaseUrl (subdomain url : Option String) : String :=
  if pyStrTruthy subdomain then
    cubejsCloudBaseUrl (subdomain.getD "") ++ "/cubejs-api"
  else
    url.getD ""

/-- `CubeJSClient._get_query_api_url`. -/
def getQueryApiUrl (subdomain url : Option String) : String :=
  getCubeBaseUrl subdomain url ++ "/v1/load"

/-- `CubeJSClient._get_generated_sql_api_url`. -/
def getGeneratedSqlApiUrl (subdomain url : Option String) : String :=
  getCubeBaseUrl subdomain url ++ "/v1/sql"

/-- `CubeJSClient._get_pre_aggregations_jobs_api_url`. -/
def getPreAggregationsJobsApiUrl (subdomain url : Option String) : String :=
  getCubeBaseUrl subdomain url ++ "/v1/pre-aggregations/jobs"

/-! ## The continue-wait polling loop (`utils.py`,
`CubeJSClient._get_data_from_url`) -/

/-- One scripted HTTP response: status code, JSON body (a flat dict with
opaque values), and the transport `reason` text. -/
structure Response where
  status : Nat
  body : Dict
  reason : String
  deriving Repr, DecidableEq

/-- The in-progress test of the loop body:
`"error" in data.keys() and "Continue wait" in data["error"]`. -/
def continueWait (body : Dict) : Bool :=
  match dictGet "error" body with
  | some e => pyIn "Continue wait" e
  | none => false

/-- The loop guard
`while not self.max_wait_time or elapsed_wait_time <= self.max_wait_time`.
Python short-circuits, so for a falsy `max_wait_time` the guard is true
without the comparison. -/
def loopGuard (maxWait : Option Int) (elapsed : Int) : Bool :=
  !(pyTruthy maxWait) || elapsed ≤ maxWait.getD 0

/-- `f"Cube.js load API failed! Error is: {response.reason}"`. -/
def httpFailMsg (reason : String) : String :=
  "Cube.js load API failed! Error is: " ++ reason

/-- The triple-quoted ceiling message raised after the loop exits
(`utils.py` lines 140–142), with the f-string interpolation of
`self.max_wait_time`. -/
def ceilingMsg (maxWait : Option Int) : String :=
  "\n        Cube.js API took longer than " ++
    (pyStr maxWait ++ " seconds to provide a response.\n        ")

/-- How one call to `_get_data_from_url` ends. -/
inductive FetchResult where
  /-- `return data` — the 200 body returned to the caller. -/
  | ok : Dict → FetchResult
  /-- `raise CubeJSAPIFailureException(msg)`. -/
  | raised : String → FetchResult
  /-- Artefact of the scripted-response model: the script ran out while
  the loop still wanted to issue a request. -/
  | noResponse : FetchResult
  deriving Repr, DecidableEq

/-- Observable outcome of one `_get_data_from_url` call: how it ended,
how many HTTP requests it issued, and the total seconds slept. -/
structure FetchOutcome where
  result : FetchResult
  calls : Nat
  slept : Int
  deriving Repr, DecidableEq

/-- The polling loop of `_get_data_from_url`, with the elapsed-wait-time
accumulator explicit and the remaining response script as fuel.
Each iteration first evaluates the guard; inside, a 200 response whose
body signals "Continue wait" sleeps `waitSecs`, adds `waitSecs` to the
accumulator and retries; any other 200 body is returned; a non-200
response raises at once. -/
def getDataAux (waitSecs : Int) (maxWait : Option Int) :
    Int → List Response → FetchOutcome
  | elapsed, trace =>
    if loopGuard maxWait elapsed then
      match trace with
      | [] => ⟨.noResponse, 0, 0⟩
      | r :: rest =>
        if r.status == 200 then
          if continueWait r.body then
            let o := getDataAux waitSecs maxWait (elapsed + waitSecs) rest
            ⟨o.result, o.calls + 1, o.slept + waitSecs⟩
          else
            ⟨.ok r.body, 1, 0⟩
        else
          ⟨.raised (httpFailMsg r.reason), 1, 0⟩
    else
      ⟨.raised (ceilingMsg maxWait), 0, 0⟩

/-- `CubeJSClient._get_data_from_url`: the loop started with
`elapsed_wait_time = 0`. -/
def getDataFromUrl (waitSecs : Int) (maxWait : Option Int)
    (trace : List Response) : FetchOutcome :=
  getDataAux waitSecs maxWait 0 trace

/-! ## `CubeJSClient.get_data` (`utils.py` lines 145–169)

`get_data` first fetches the load endpoint; when `include_generated_sql`
is set it then fetches the sql endpoint with the same params through the
same `_get_data_from_url` loop and stores the `"sql"` field of that second
response under key `"sql"` of the first response's body.  The two fetches
consume the load-endpoint and sql-endpoint response scripts. -/

/-- How `get_data` ends. -/
inductive GetDataResult where
  /-- The (possibly sql-augmented) body returned to the caller. -/
  | ok : Dict → GetDataResult
  /-- A `CubeJSAPIFailureException` propagated from `_get_data_from_url`. -/
  | raised : String → GetDataResult
  /-- A response script ran out (model artefact). -/
  | noResponse : GetDataResult
  /-- Python `KeyError`: the sql response had no `"sql"` field. -/
  | keyError : GetDataResult
  deriving Repr, DecidableEq

/-- `CubeJSClient.get_data`. -/
def get_data (waitSecs : Int) (maxWait : Option Int)
    (includeGeneratedSql : Bool)
    (loadTrace sqlTrace : List Response) : GetDataResult :=
  match (getDataFromUrl waitSecs maxWait loadTrace).result with
  | .ok data =>
    if includeGeneratedSql then
      match (getDataFromUrl waitSecs maxWait sqlTrace).result with
      | .ok sqlData =>
        match dictGet "sql" sqlData with
        | some v => .ok (dictSet "sql" v data)
        | none => .keyError
      | .raised msg => .raised msg
      | .noResponse => .noResponse
    else
      .ok data
  | .raised msg => .raised msg
  | .noResponse => .noResponse

/-! ## `run_query` wait coercion (`tasks.py` lines 141–143) -/

/-- `wait_api_call_secs = wait_time_between_api_calls if
wait_time_between_api_calls > 0 else 10` in `run_query`. -/
def run_query_wait_secs (wait_time_between_api_calls : Int) : Int :=
  if wait_time_between_api_calls > 0 then wait_time_between_api_calls else 10

/-! ## Job-status aggregation (`tasks.py`, `build_pre_aggregations`)

A poll round's response maps each job token to a record of which only the
`"status"` field is read; a round is modelled as the insertion-ordered
list of `(token, status)` pairs. -/

/-- The failure message of `build_pre_aggregations` (triple-quoted,
16-space indentation). -/
def jobFailedMsg (status : String) : String :=
  "\n                Cube pre-aggregations build failed: " ++
    (status ++ ".\n                ")

/-- The missing-partitions message of `build_pre_aggregations`
(triple-quoted, 12-space indentation). -/
def missingPartitionsMsg : String :=
  "\n            Cube pre-aggregations build failed: missing partitions.\n            "

/-- The `# check` section of `build_pre_aggregations` (lines 277–297):
scan the round's statuses carrying the `missing_only` flag and the
`in_process` list; a status containing `"failure"` raises at once; after
the scan `missing_only` raises the missing-partitions error, otherwise
the `in_process` tokens (those whose status is not `"done"`) are
returned. -/
def checkRoundAux : List (String × String) → Bool → List String →
    Except String (List String)
  | [], missing_only, in_process =>
      if missing_only then .error missingPartitionsMsg else .ok in_process
  | (token, status) :: rest, missing_only, in_process =>
      if pyIn "failure" status then
        .error (jobFailedMsg status)
      else
        checkRoundAux rest (missing_only && (status == "missing_partition"))
          (in_process ++ if status != "done" then [token] else [])

/-- One poll round's check, entered with `missing_only = True` and
`in_process = []` as in the source. -/
def checkRound (round : List (String × String)) :
    Except String (List String) :=
  checkRoundAux round true []

/-- How `build_pre_aggregations` ends. -/
inductive BuildResult where
  /-- Fire-and-forget: the raw token list of the initial POST returned. -/
  | tokens : List String → BuildResult
  /-- `return True`: every job reached `"done"`. -/
  | success : BuildResult
  /-- `raise CubeJSAPIFailureException(msg)`. -/
  | raised : String → BuildResult
  /-- The scripted rounds ran out while still iterating (model
  artefact). -/
  | noResponse : BuildResult
  deriving Repr, DecidableEq

/-- Observable outcome of `build_pre_aggregations`: how it ended, the
token set sent with each status query (in order), and total seconds
slept. -/
structure BuildOutcome where
  result : BuildResult
  sent : List (List String)
  slept : Int
  deriving Repr, DecidableEq

/-- The `while iterate` loop of `build_pre_aggregations`
(lines 261–299): each iteration sleeps `waitSecs`
(`wait_time_between_api_calls`, used unmodified), sends a status query
for the original `tokens` list (the variable is never reassigned),
consumes the next scripted round and runs the check; the next
iteration's guard is `len(in_process) > 0`. -/
def buildLoop (tokens : List String) (waitSecs : Int) :
    Bool → List (List (String × String)) → BuildOutcome
  | false, _ => ⟨.success, [], 0⟩
  | true, [] => ⟨.noResponse, [], 0⟩
  | true, round :: rest =>
    match checkRound round with
    | .error msg => ⟨.raised msg, [tokens], waitSecs⟩
    | .ok in_process =>
      let o := buildLoop tokens waitSecs (in_process.length > 0) rest
      ⟨o.result, tokens :: o.sent, waitSecs + o.slept⟩

/-- `build_pre_aggregations` after the initial POST returned `tokens`:
without `wait_for_job_run_completion` the raw token list is returned with
no status query; with it the loop is entered with guard
`len(tokens) > 0`. -/
def build_pre_aggregations (waitSecs : Int)
    (wait_for_job_run_completion : Bool) (tokens : List String)
    (rounds : List (List (String × String))) : BuildOutcome :=
  if !wait_for_job_run_completion then
    ⟨.tokens tokens, [], 0⟩
  else
    buildLoop tokens waitSecs (tokens.length > 0) rounds

/-! ## `AuthHeader.api_token` (`blocks.py` lines 62–76)

PyJWT's `jwt.encode` is deterministic HMAC signing: the token is a pure
function of the payload, the key and the pinned algorithm (the default
algorithm of `jwt.encode` is `"HS256"`); it is modelled abstractly by the
triple itself.  `SecretDict.get_secret_value()` returns the wrapped
`dict` object itself (a Python reference, not a copy), so the key
assignment `extended_context["expiresIn"] = "7d"` mutates the mapping
stored in the `SecurityContext` block; `api_token` is therefore modelled
as a state-passing function returning the token together with the
mapping as stored after the call. -/

/-- Abstract model of a PyJWT token: deterministic signature determined
by payload, key and algorithm. -/
structure Jwt where
  payload : Dict
  key : String
  alg : String
  deriving Repr, DecidableEq

/-- Abstract `jwt.encode(payload=..., key=..., algorithm=...)`. -/
def jwtEncode (payload : Dict) (key : String) (alg : String) : Jwt :=
  ⟨payload, key, alg⟩

/-- `AuthHeader.api_token`: returns the token and the security-context
mapping as stored in the block after the computation.  With no security
context the token signs the empty claim set; otherwise, when the mapping
has neither `"exp"` nor `"expiresIn"`, `"expiresIn" = "7d"` is assigned
into the mapping (in place) before signing it. -/
def api_token (api_secret : String) (security_context : Option Dict) :
    Jwt × Option Dict :=
  match security_context with
  | none => (jwtEncode [] api_secret "HS256", none)
  | some ctx =>
    let extended_context :=
      if !hasKey "exp" ctx && !hasKey "expiresIn" ctx then
        dictSet "expiresIn" "7d" ctx
      else
        ctx
    (jwtEncode extended_context api_secret "HS256", some extended_context)

/-! ## Shared lemmas -/

/-- Two string appends differ when the left parts already disagree on
their first `n` characters. -/
theorem append_ne_of_take_ne (a x b y : String) (n : Nat)
    (hna : n ≤ a.data.length) (hnb : n ≤ b.data.length)
    (h : a.data.take n ≠ b.data.take n) : a ++ x ≠ b ++ y := by
  intro heq
  apply h
  have hd := congrArg String.data heq
  rw [String.data_append, String.data_append] at hd
  calc a.data.take n
      = (a.data ++ x.data).take n := (List.take_append_of_le_length hna).symm
    _ = (b.data ++ y.data).take n := by rw [hd]
    _ = b.data.take n := List.take_append_of_le_length hnb

theorem httpFailMsg_ne_ceilingMsg (reason : String) (m : Option Int) :
    httpFailMsg reason ≠ ceilingMsg m :=
  append_ne_of_take_ne _ _ _ _ 1 (by decide) (by decide) (by decide)

theorem jobFailedMsg_ne_missingPartitionsMsg (st : String) :
    jobFailedMsg st ≠ missingPartitionsMsg := by
  have h := append_ne_of_take_ne
    "\n                Cube pre-aggregations build failed: "
    (st ++ ".\n                ") missingPartitionsMsg "" 14
    (by decide) (by decide) (by decide)
  rw [String.append_empty] at h
  exact h

theorem dictGet_dictSet_self (k v : String) (d : Dict) :
    dictGet k (dictSet k v d) = some v := by
  induction d with
  | nil => simp [dictGet, dictSet]
  | cons p rest ih =>
    obtain ⟨k', v'⟩ := p
    by_cases h : k' = k
    · simp [dictSet, dictGet, h]
    · simp [dictSet, dictGet, h, ih]

theorem dictGet_dictSet_ne (k k' v : String) (h : k' ≠ k) (d : Dict) :
    dictGet k' (dictSet k v d) = dictGet k' d := by
  induction d with
  | nil => simp [dictGet, dictSet, Ne.symm h]
  | cons p rest ih =>
    obtain ⟨k'', v''⟩ := p
    by_cases h2 : k'' = k
    · subst h2
      simp [dictSet, dictGet, Ne.symm h]
    · simp [dictSet, dictGet, h2, ih]

theorem getDataAux_cw_trace (w : Int) (m : Option Int) (hm : pyTruthy m = false)
    (cwb sb : Dict) (r1 r2 : String)
    (hcw : continueWait cwb = true) (hsb : continueWait sb = false) :
    ∀ (N : Nat) (e : Int),
      getDataAux w m e
          (List.replicate N ⟨200, cwb, r1⟩ ++ [⟨200, sb, r2⟩]) =
        ⟨.ok sb, N + 1, (N : Int) * w⟩ := by
  intro N
  induction N with
  | zero =>
    intro e
    rw [getDataAux.eq_def]
    simp [loopGuard, hm, hsb]
  | succ n ih =>
    intro e
    rw [List.replicate_succ, List.cons_append, getDataAux.eq_def]
    simp only [loopGuard, hm, Bool.not_false, Bool.true_or, if_true]
    simp only [continueWait] at hcw ⊢
    simp [hcw, ih (e + w)]
    ring

theorem getDataAux_ok_step (w : Int) (m : Option Int) (e : Int)
    (r : Response) (rest : List Response)
    (hg : loopGuard m e = true) (hs : r.status = 200)
    (hb : continueWait r.body = false) :
    getDataAux w m e (r :: rest) = ⟨.ok r.body, 1, 0⟩ := by
  rw [getDataAux.eq_def]
  simp [hg, hs, hb]

theorem getDataAux_http_fail (w : Int) (m : Option Int) (e : Int)
    (r : Response) (rest : List Response)
    (hg : loopGuard m e = true) (hs : r.status ≠ 200) :
    getDataAux w m e (r :: rest) = ⟨.raised (httpFailMsg r.reason), 1, 0⟩ := by
  rw [getDataAux.eq_def]
  simp [hg, hs]

theorem getDataAux_cw_step (w : Int) (m : Option Int) (e : Int)
    (r : Response) (rest : List Response)
    (hg : loopGuard m e = true) (hs : r.status = 200)
    (hb : continueWait r.body = true) :
    getDataAux w m e (r :: rest) =
      ⟨(getDataAux w m (e + w) rest).result,
       (getDataAux w m (e + w) rest).calls + 1,
       (getDataAux w m (e + w) rest).slept + w⟩ := by
  rw [getDataAux.eq_def]
  simp [hg, hs, hb]

theorem getDataAux_ceiling (w : Int) (m : Option Int) (e : Int)
    (trace : List Response) (hg : loopGuard m e = false) :
    getDataAux w m e trace = ⟨.raised (ceilingMsg m), 0, 0⟩ := by
  rw [getDataAux.eq_def]
  simp [hg]

theorem loopGuard_of_not_truthy (m : Option Int) (hm : pyTruthy m = false)
    (e : Int) : loopGuard m e = true := by
  simp [loopGuard, hm]

theorem loopGuard_some_pos (v : Int) (hv : 0 < v) (e : Int) :
    loopGuard (some v) e = (decide (e ≤ v)) := by
  simp [loopGuard, pyTruthy, Option.getD]
  intro h
  omega

-- every attempt with elapsed within the ceiling issues at least one call
theorem getDataAux_calls_pos (w : Int) (m : Option Int) (e : Int)
    (r : Response) (rest : List Response) (hg : loopGuard m e = true) :
    1 ≤ (getDataAux w m e (r :: rest)).calls := by
  rw [getDataAux.eq_def]
  by_cases hs : r.status == 200
  · by_cases hb : continueWait r.body
    · simp [hg, hs, hb]
    · simp [hg, hs, hb]
  · simp [hg, hs]

-- an all-continue-wait script drives the loop to the ceiling failure
theorem getDataAux_allcw_ceiling (w : Int) (v : Int) (hv : v ≠ 0)
    (cwb : Dict) (r1 : String) (hcw : continueWait cwb = true) :
    ∀ (L : Nat) (e : Int), v < e + (L : Int) * w →
      (getDataAux w (some v) e (List.replicate L ⟨200, cwb, r1⟩)).result =
        .raised (ceilingMsg (some v)) := by
  intro L
  induction L with
  | zero =>
    intro e he
    have hg : loopGuard (some v) e = false := by
      simp only [loopGuard, pyTruthy, Option.getD]
      simp at he
      simp [hv]
      omega
    rw [getDataAux_ceiling w (some v) e _ hg]
  | succ n ih =>
    intro e he
    by_cases hg : loopGuard (some v) e = true
    · rw [List.replicate_succ,
        getDataAux_cw_step w (some v) e _ _ hg rfl hcw]
      apply ih
      push_cast at he ⊢
      linarith
    · rw [getDataAux_ceiling w (some v) e _ (by simpa using hg)]

-- max_wait_time = 0 is falsy: the loop behaves as with no ceiling at all
theorem getDataAux_zero_eq_none (w : Int) :
    ∀ (trace : List Response) (e : Int),
      getDataAux w (some 0) e trace = getDataAux w none e trace := by
  intro trace
  induction trace with
  | nil =>
    intro e
    rw [getDataAux.eq_def, getDataAux.eq_def]
    simp [loopGuard, pyTruthy]
  | cons r rest ih =>
    intro e
    rw [getDataAux.eq_def, getDataAux.eq_def]
    simp [loopGuard, pyTruthy, ih (e + w)]

theorem getDataAux_not_truthy_no_ceiling (w : Int) (m : Option Int)
    (hm : pyTruthy m = false) :
    ∀ (trace : List Response) (e : Int) (m' : Option Int),
      (getDataAux w m e trace).result ≠ .raised (ceilingMsg m') := by
  intro trace
  induction trace with
  | nil =>
    intro e m'
    rw [getDataAux.eq_def]
    simp [loopGuard, hm]
  | cons r rest ih =>
    intro e m'
    have hg := loopGuard_of_not_truthy m hm e
    by_cases hs : r.status = 200
    · by_cases hb : continueWait r.body
      · rw [getDataAux_cw_step w m e r rest hg hs hb]
        exact ih (e + w) m'
      · rw [getDataAux_ok_step w m e r rest hg hs (by simpa using hb)]
        simp
    · rw [getDataAux_http_fail w m e r rest hg hs]
      simp
      exact httpFailMsg_ne_ceilingMsg r.reason m'

-- `checkRound` lemmas ------------------------------------------------

theorem checkRoundAux_fail (l : List (String × String)) :
    ∀ (mo : Bool) (ip : List String),
      (∃ p ∈ l, pyIn "failure" p.2 = true) →
      ∃ st, pyIn "failure" st = true ∧
        checkRoundAux l mo ip = .error (jobFailedMsg st) := by
  induction l with
  | nil => intro mo ip h; simp at h
  | cons p rest ih =>
    intro mo ip h
    obtain ⟨tok, st⟩ := p
    by_cases hf : pyIn "failure" st = true
    · exact ⟨st, hf, by simp [checkRoundAux, hf]⟩
    · have h2 : ∃ q ∈ rest, pyIn "failure" q.2 = true := by
        rcases h with ⟨q, hq, hfq⟩
        rcases List.mem_cons.mp hq with h3 | h3
        · rw [h3] at hfq; exact absurd hfq hf
        · exact ⟨q, h3, hfq⟩
      have hf' : pyIn "failure" st = false := by simpa using hf
      obtain ⟨st', hst', heq⟩ := ih _ _ h2
      refine ⟨st', hst', ?_⟩
      simp only [checkRoundAux, hf', Bool.false_eq_true, if_false]
      exact heq

theorem checkRoundAux_all_missing (l : List (String × String)) :
    ∀ (ip : List String), (∀ p ∈ l, p.2 = "missing_partition") →
      checkRoundAux l true ip = .error missingPartitionsMsg := by
  induction l with
  | nil => intro ip _; simp [checkRoundAux]
  | cons p rest ih =>
    intro ip h
    obtain ⟨tok, st⟩ := p
    have hst : st = "missing_partition" := h (tok, st) (List.mem_cons_self _ _)
    subst hst
    have hf : pyIn "failure" "missing_partition" = false := by decide
    simp only [checkRoundAux, hf, Bool.false_eq_true, if_false]
    have hb : (true && ("missing_partition" == "missing_partition")) = true := by decide
    rw [hb]
    exact ih _ (fun q hq => h q (List.mem_cons_of_mem _ hq))

theorem checkRoundAux_all_done (l : List (String × String)) :
    ∀ (ip : List String), (∀ p ∈ l, p.2 = "done") →
      checkRoundAux l false ip = .ok ip := by
  induction l with
  | nil => intro ip _; simp [checkRoundAux]
  | cons p rest ih =>
    intro ip h
    obtain ⟨tok, st⟩ := p
    have hst : st = "done" := h (tok, st) (List.mem_cons_self _ _)
    subst hst
    have hf : pyIn "failure" "done" = false := by decide
    simp only [checkRoundAux, hf, Bool.false_eq_true, if_false]
    have hb : (false && ("done" == "missing_partition")) = false := by decide
    have hd : (ip ++ if ("done" : String) != "done" then [tok] else []) = ip := by
      simp
    rw [hb, hd]
    exact ih _ (fun q hq => h q (List.mem_cons_of_mem _ hq))

theorem checkRoundAux_ok_inv (l : List (String × String)) :
    ∀ (mo : Bool) (ip out : List String),
      checkRoundAux l mo ip = .ok out →
      (∃ suf, out = ip ++ suf) ∧
      ∀ p ∈ l, pyIn "failure" p.2 = false ∧ (p.2 ≠ "done" → p.1 ∈ out) := by
  induction l with
  | nil =>
    intro mo ip out h
    rcases mo with _ | _
    · simp [checkRoundAux] at h
      exact ⟨⟨[], by simp [h]⟩, by simp⟩
    · simp [checkRoundAux] at h
  | cons p rest ih =>
    intro mo ip out h
    obtain ⟨tok, st⟩ := p
    by_cases hf : pyIn "failure" st = true
    · simp [checkRoundAux, hf] at h
    · have hf' : pyIn "failure" st = false := by simpa using hf
      simp only [checkRoundAux, hf', Bool.false_eq_true, if_false] at h
      obtain ⟨⟨suf, hsuf⟩, hrest⟩ := ih _ _ _ h
      constructor
      · exact ⟨(if st != "done" then [tok] else []) ++ suf, by
          rw [hsuf, List.append_assoc]⟩
      · intro q hq
        rcases List.mem_cons.mp hq with h3 | h3
        · subst h3
          refine ⟨hf', fun hd => ?_⟩
          have : tok ∈ ip ++ if st != "done" then [tok] else [] := by
            simp [hd]
          rw [hsuf]
          exact List.mem_append_left _ this
        · exact hrest q h3

theorem checkRound_ok_nil_iff (round : List (String × String)) :
    checkRound round = .ok [] ↔
      (round ≠ [] ∧ ∀ p ∈ round, p.2 = "done") := by
  constructor
  · intro h
    constructor
    · intro hnil
      subst hnil
      simp [checkRound, checkRoundAux] at h
    · intro p hp
      obtain ⟨_, hall⟩ := checkRoundAux_ok_inv round true [] [] h
      rcases hall p hp with ⟨_, hdone⟩
      by_contra hne
      exact absurd (hdone hne) (List.not_mem_nil _)
  · rintro ⟨hne, hall⟩
    match round, hne with
    | (tok, st) :: rest, _ =>
      have hst : st = "done" := hall (tok, st) (List.mem_cons_self _ _)
      subst hst
      have hf : pyIn "failure" "done" = false := by decide
      simp only [checkRound, checkRoundAux, hf, Bool.false_eq_true, if_false]
      have hb : (true && ("done" == "missing_partition")) = false := by decide
      have hd : (([] : List String) ++ if ("done" : String) != "done" then [tok] else []) = [] := by
        simp
      rw [hb, hd]
      exact checkRoundAux_all_done rest []
        (fun q hq => hall q (List.mem_cons_of_mem _ hq))

-- `buildLoop` lemmas ------------------------------------------------

theorem buildLoop_sent_eq_tokens (tokens : List String) (w : Int) :
    ∀ (rounds : List (List (String × String))) (g : Bool) (q : List String),
      q ∈ (buildLoop tokens w g rounds).sent → q = tokens := by
  intro rounds
  induction rounds with
  | nil =>
    intro g q hq
    rcases g with _ | _ <;> simp [buildLoop] at hq
  | cons r rest ih =>
    intro g q hq
    rcases g with _ | _
    · simp [buildLoop] at hq
    · rcases hcr : checkRound r with msg | ip
      · simp [buildLoop, hcr] at hq
        exact hq
      · simp only [buildLoop, hcr] at hq
        rcases List.mem_cons.mp hq with h3 | h3
        · exact h3
        · exact ih _ q h3

theorem buildLoop_slept_eq (tokens : List String) (w : Int) :
    ∀ (rounds : List (List (String × String))) (g : Bool),
      (buildLoop tokens w g rounds).slept =
        w * (buildLoop tokens w g rounds).sent.length := by
  intro rounds
  induction rounds with
  | nil =>
    intro g
    rcases g with _ | _ <;> simp [buildLoop]
  | cons r rest ih =>
    intro g
    rcases g with _ | _
    · simp [buildLoop]
    · rcases hcr : checkRound r with msg | ip
      · simp [buildLoop, hcr]
      · simp only [buildLoop, hcr, List.length_cons]
        rw [ih]
        push_cast
        ring

theorem buildLoop_all_done (tokens : List String) (w : Int)
    (r : List (String × String)) (rest : List (List (String × String)))
    (hr : checkRound r = .ok []) :
    buildLoop tokens w true (r :: rest) = ⟨.success, [tokens], w⟩ := by
  simp [buildLoop, hr]

theorem buildLoop_continue (tokens : List String) (w : Int)
    (r : List (String × String)) (rest : List (List (String × String)))
    (ip : List String) (hr : checkRound r = .ok ip) (hip : ip ≠ []) :
    buildLoop tokens w true (r :: rest) =
      ⟨(buildLoop tokens w true rest).result,
       tokens :: (buildLoop tokens w true rest).sent,
       w + (buildLoop tokens w true rest).slept⟩ := by
  have hlen : (decide (ip.length > 0)) = true := by
    simp [List.length_pos, hip]
  simp only [buildLoop, hr, hlen]

theorem buildLoop_success_inv (tokens : List String) (w : Int) :
    ∀ (rounds : List (List (String × String))),
      (buildLoop tokens w true rounds).result = .success →
      ∃ pre r post, rounds = pre ++ r :: post ∧ checkRound r = .ok [] := by
  intro rounds
  induction rounds with
  | nil => intro h; simp [buildLoop] at h
  | cons r rest ih =>
    intro h
    rcases hcr : checkRound r with msg | ip
    · simp [buildLoop, hcr] at h
    · rcases hip : ip with _ | ⟨t, ts⟩
      · exact ⟨[], r, rest, by simp, by rw [hcr, hip]⟩
      · subst hip
        rw [buildLoop_continue tokens w r rest _ hcr (by simp)] at h
        obtain ⟨pre, r', post, hsplit, hok⟩ := ih h
        exact ⟨r :: pre, r', post, by simp [hsplit], hok⟩

/-- C1: In `_get_data_from_url`, a 200 response whose body's `error` field
contains `"Continue wait"` is the only retry trigger: a script of N
continue-wait responses followed by a success makes exactly N+1 HTTP
calls, sleeping `wait_interval` and adding it to the elapsed accumulator
before each retry; a 200 body with any other (or no) error text is
returned as-is with a single call, and a non-200 response raises with a
single call. -/
theorem claim_C1_continue_wait_only_retry (w : Int) (m : Option Int)
    (hm : pyTruthy m = false) :
    (∀ (N : Nat) (cwb sb : Dict) (r1 r2 : String),
        continueWait cwb = true → continueWait sb = false →
        getDataFromUrl w m
            (List.replicate N ⟨200, cwb, r1⟩ ++ [⟨200, sb, r2⟩]) =
          ⟨.ok sb, N + 1, (N : Int) * w⟩) ∧
    (∀ (e : Int) (cwb : Dict) (r1 : String) (rest : List Response),
        continueWait cwb = true →
        getDataAux w m e (⟨200, cwb, r1⟩ :: rest) =
          ⟨(getDataAux w m (e + w) rest).result,
           (getDataAux w m (e + w) rest).calls + 1,
           (getDataAux w m (e + w) rest).slept + w⟩) ∧
    (∀ (r : Response) (rest : List Response),
        r.status = 200 → continueWait r.body = false →
        getDataFromUrl w m (r :: rest) = ⟨.ok r.body, 1, 0⟩) ∧
    (∀ (b : Dict) (err r1 : String) (rest : List Response),
        dictGet "error" b = some err → pyIn "Continue wait" err = false →
        getDataFromUrl w m (⟨200, b, r1⟩ :: rest) = ⟨.ok b, 1, 0⟩) ∧
    (∀ (r : Response) (rest : List Response), r.status ≠ 200 →
        getDataFromUrl w m (r :: rest) =
          ⟨.raised (httpFailMsg r.reason), 1, 0⟩) := by
  refine ⟨?_, ?_, ?_, ?_, ?_⟩
  · intro N cwb sb r1 r2 hcw hsb
    exact getDataAux_cw_trace w m hm cwb sb r1 r2 hcw hsb N 0
  · intro e cwb r1 rest hcw
    exact getDataAux_cw_step w m e _ rest (loopGuard_of_not_truthy m hm e)
      rfl hcw
  · intro r rest hs hb
    exact getDataAux_ok_step w m 0 r rest (loopGuard_of_not_truthy m hm 0)
      hs hb
  · intro b err r1 rest herr hcw
    refine getDataAux_ok_step w m 0 _ rest (loopGuard_of_not_truthy m hm 0)
      rfl ?_
    simp [continueWait, herr, hcw]
  · intro r rest hs
    exact getDataAux_http_fail w m 0 r rest (loopGuard_of_not_truthy m hm 0)
      hs

/-- C1 witness: two continue waits then one success with
`wait_interval = 5` and no ceiling: 3 calls, 10 seconds slept, success
body returned. -/
theorem claim_C1_witness :
    getDataFromUrl 5 none
        (List.replicate 2 ⟨200, [("error", "Continue wait")], "OK"⟩ ++
          [⟨200, [("data", "x")], "OK"⟩]) =
      ⟨.ok [("data", "x")], 3, 10⟩ := by
  have h := (claim_C1_continue_wait_only_retry 5 none rfl).1 2
    [("error", "Continue wait")] [("data", "x")] "OK" "OK"
    (by decide) (by decide)
  simpa using h

/-- C2: `_get_data_from_url` raises `CubeJSAPIFailureException` exactly in
two cases: a non-200 response raises immediately with the transport
reason text (one call, no retry); with a positive `max_wait_time` the
ceiling check runs before each new attempt, so an attempt is still issued
whenever the elapsed accumulator is at most the ceiling (including
equality), a continue-wait script eventually raises the exceeded-ceiling
error, that error is raised (with no further call) exactly from states
where elapsed exceeds the ceiling, and its message states the configured
`max_wait_time` value. -/
theorem claim_C2_failure_modes (w v : Int) (hv : 0 < v) :
    (∀ (m : Option Int) (r : Response) (rest : List Response),
        loopGuard m 0 = true → r.status ≠ 200 →
        getDataFromUrl w m (r :: rest) =
          ⟨.raised (httpFailMsg r.reason), 1, 0⟩) ∧
    (∀ reason, ∃ p, httpFailMsg reason = p ++ reason) ∧
    (∀ (e : Int) (trace : List Response), v < e →
        getDataAux w (some v) e trace =
          ⟨.raised (ceilingMsg (some v)), 0, 0⟩) ∧
    (∀ (e : Int) (r : Response) (rest : List Response), e ≤ v →
        1 ≤ (getDataAux w (some v) e (r :: rest)).calls) ∧
    (∀ (cwb : Dict) (r1 : String), continueWait cwb = true →
        ∀ (L : Nat), v < (L : Int) * w →
          (getDataFromUrl w (some v)
              (List.replicate L ⟨200, cwb, r1⟩)).result =
            .raised (ceilingMsg (some v))) ∧
    (∃ p s, ceilingMsg (some v) = p ++ (toString v ++ s)) := by
  refine ⟨?_, ?_, ?_, ?_, ?_, ?_⟩
  · intro m r rest hg hs
    exact getDataAux_http_fail w m 0 r rest hg hs
  · intro reason
    exact ⟨"Cube.js load API failed! Error is: ", rfl⟩
  · intro e trace he
    refine getDataAux_ceiling w (some v) e trace ?_
    rw [loopGuard_some_pos v hv e]
    simpa using not_le.mpr he
  · intro e r rest he
    refine getDataAux_calls_pos w (some v) e r rest ?_
    rw [loopGuard_some_pos v hv e]
    simpa using he
  · intro cwb r1 hcw L hL
    refine getDataAux_allcw_ceiling w v (by omega) cwb r1 hcw L 0 ?_
    simpa using hL
  · exact ⟨"\n        Cube.js API took longer than ",
      " seconds to provide a response.\n        ", rfl⟩

/-- C2 witness: the spec's boundary example — `wait_interval = 1`,
`max_wait = 3`, a server that always answers continue wait: the client
raises the exceeded-ceiling error; and a 500 response raises at once with
the transport reason text. -/
theorem claim_C2_witness :
    (getDataFromUrl 1 (some 3)
        (List.replicate 4 ⟨200, [("error", "Continue wait")], "OK"⟩)).result =
      .raised (ceilingMsg (some 3)) ∧
    getDataFromUrl 1 (some 3) [⟨500, [], "Internal Server Error"⟩] =
      ⟨.raised (httpFailMsg "Internal Server Error"), 1, 0⟩ := by
  constructor
  · exact (claim_C2_failure_modes 1 3 (by decide)).2.2.2.2.1
      [("error", "Continue wait")] "OK" (by decide) 4 (by decide)
  · exact (claim_C2_failure_modes 1 3 (by decide)).1 (some 3)
      ⟨500, [], "Internal Server Error"⟩ [] (by decide) (by decide)

/-- C3: In the job-status check of `build_pre_aggregations`, any status
containing the substring `"failure"` makes the round raise the failure
error whose message contains that status text, whatever the other
statuses are; and when every status equals `"missing_partition"` the
round raises the distinct missing-partitions error although no status
reports a failure. -/
theorem claim_C3_job_batch_failures (round : List (String × String)) :
    ((∃ p ∈ round, pyIn "failure" p.2 = true) →
      ∃ st, pyIn "failure" st = true ∧
        checkRound round = .error (jobFailedMsg st) ∧
        ∃ pre post, jobFailedMsg st = pre ++ (st ++ post)) ∧
    ((∀ p ∈ round, p.2 = "missing_partition") →
      (∀ p ∈ round, pyIn "failure" p.2 = false) ∧
      checkRound round = .error missingPartitionsMsg ∧
      ∀ st, missingPartitionsMsg ≠ jobFailedMsg st) := by
  constructor
  · intro h
    obtain ⟨st, hst, heq⟩ := checkRoundAux_fail round true [] h
    exact ⟨st, hst, heq,
      "\n                Cube pre-aggregations build failed: ",
      ".\n                ", rfl⟩
  · intro h
    refine ⟨?_, checkRoundAux_all_missing round [] h, ?_⟩
    · intro p hp
      rw [h p hp]
      decide
    · intro st
      exact (jobFailedMsg_ne_missingPartitionsMsg st).symm

/-- C3 witness: one failing status among in-progress and done statuses
raises the failure error carrying that status; an all-missing-partition
round raises the missing-partitions error. -/
theorem claim_C3_witness :
    (∃ st, pyIn "failure" st = true ∧
      checkRound [("a", "done"), ("b", "failure: returned error"),
        ("c", "processing")] = .error (jobFailedMsg st)) ∧
    checkRound [("a", "missing_partition"), ("b", "missing_partition")] =
      .error missingPartitionsMsg := by
  constructor
  · obtain ⟨st, hst, heq, -⟩ :=
      (claim_C3_job_batch_failures
        [("a", "done"), ("b", "failure: returned error"),
          ("c", "processing")]).1
        ⟨("b", "failure: returned error"), by decide⟩
    exact ⟨st, hst, heq⟩
  · exact ((claim_C3_job_batch_failures
      [("a", "missing_partition"), ("b", "missing_partition")]).2
      (by decide)).2.1

/-- C4: `build_pre_aggregations` without `wait_for_job_run_completion`
returns the raw token list with no status poll; with it, every status
query is sent with the original full token set, a round in which every
job is `"done"` (and only such a round) yields `in_process = []` and ends
the loop returning `True`, a round with a non-empty `in_process` set
continues the loop, and a `True` result can only arise from a consumed
all-done round. -/
theorem claim_C4_build_pre_aggregations_flow (w : Int)
    (tokens : List String) (rounds : List (List (String × String))) :
    (build_pre_aggregations w false tokens rounds =
      ⟨.tokens tokens, [], 0⟩) ∧
    (∀ (waitFor : Bool) (q : List String),
        q ∈ (build_pre_aggregations w waitFor tokens rounds).sent →
        q = tokens) ∧
    (∀ (round : List (String × String)),
        checkRound round = .ok [] ↔
          (round ≠ [] ∧ ∀ p ∈ round, p.2 = "done")) ∧
    (∀ (round : List (String × String)) rest,
        checkRound round = .ok [] →
        buildLoop tokens w true (round :: rest) = ⟨.success, [tokens], w⟩) ∧
    (∀ (round : List (String × String)) rest (ip : List String),
        checkRound round = .ok ip → ip ≠ [] →
        buildLoop tokens w true (round :: rest) =
          ⟨(buildLoop tokens w true rest).result,
           tokens :: (buildLoop tokens w true rest).sent,
           w + (buildLoop tokens w true rest).slept⟩) ∧
    ((buildLoop tokens w true rounds).result = .success →
      ∃ pre r post, rounds = pre ++ r :: post ∧ checkRound r = .ok []) := by
  refine ⟨?_, ?_, checkRound_ok_nil_iff, buildLoop_all_done tokens w,
    buildLoop_continue tokens w, buildLoop_success_inv tokens w rounds⟩
  · simp [build_pre_aggregations]
  · intro waitFor q hq
    rcases waitFor with _ | _
    · simp [build_pre_aggregations] at hq
    · simp only [build_pre_aggregations, Bool.not_true, if_false] at hq
      exact buildLoop_sent_eq_tokens tokens w rounds _ q hq

/-- C4 witness: fire-and-forget returns the raw tokens with no poll;
with waiting, a processing round then an all-done round polls twice with
the full original token set each time and returns success. -/
theorem claim_C4_witness :
    build_pre_aggregations 7 false ["a", "b"]
        [[("a", "processing"), ("b", "done")]] =
      ⟨.tokens ["a", "b"], [], 0⟩ ∧
    build_pre_aggregations 7 true ["a", "b"]
        [[("a", "processing"), ("b", "done")],
         [("a", "done"), ("b", "done")]] =
      ⟨.success, [["a", "b"], ["a", "b"]], 14⟩ := by
  constructor
  · exact (claim_C4_build_pre_aggregations_flow 7 ["a", "b"]
      [[("a", "processing"), ("b", "done")]]).1
  · have hstep := (claim_C4_build_pre_aggregations_flow 7 ["a", "b"]
      [[("a", "processing"), ("b", "done")],
       [("a", "done"), ("b", "done")]]).2.2.2.2.1
      [("a", "processing"), ("b", "done")]
      [[("a", "done"), ("b", "done")]] ["a"] (by rfl) (by decide)
    have hdone := (claim_C4_build_pre_aggregations_flow 7 ["a", "b"]
      [[("a", "processing"), ("b", "done")],
       [("a", "done"), ("b", "done")]]).2.2.2.1
      [("a", "done"), ("b", "done")] [] (by rfl)
    show buildLoop ["a", "b"] 7 (decide (List.length ["a", "b"] > 0))
        [[("a", "processing"), ("b", "done")],
         [("a", "done"), ("b", "done")]] = _
    rw [show (decide (List.length ["a", "b"] > 0)) = true by decide,
      hstep, hdone]
    rfl

/-- C5: `AuthHeader.api_token` signs: a claims mapping lacking both
`"exp"` and `"expiresIn"` extended with `"expiresIn" = "7d"` (all other
fields preserved); a mapping containing either expiry key unchanged; and
the empty claim set when no security context is supplied. -/
theorem claim_C5_api_token_payload (secret : String) (m : Dict) :
    (hasKey "exp" m = false → hasKey "expiresIn" m = false →
      (api_token secret (some m)).1 =
        jwtEncode (dictSet "expiresIn" "7d" m) secret "HS256" ∧
      dictGet "expiresIn" (api_token secret (some m)).1.payload =
        some "7d" ∧
      (∀ k, k ≠ "expiresIn" →
        dictGet k (api_token secret (some m)).1.payload = dictGet k m)) ∧
    ((hasKey "exp" m = true ∨ hasKey "expiresIn" m = true) →
      (api_token secret (some m)).1 = jwtEncode m secret "HS256") ∧
    (api_token secret none).1 = jwtEncode [] secret "HS256" := by
  refine ⟨?_, ?_, rfl⟩
  · intro hexp hein
    have hcond : (!hasKey "exp" m && !hasKey "expiresIn" m) = true := by
      rw [hexp, hein]; rfl
    have htok : (api_token secret (some m)).1 =
        jwtEncode (dictSet "expiresIn" "7d" m) secret "HS256" := by
      simp only [api_token, hcond, if_true]
    refine ⟨htok, ?_, ?_⟩
    · rw [htok]
      exact dictGet_dictSet_self _ _ m
    · intro k hk
      rw [htok]
      exact dictGet_dictSet_ne _ k _ hk m
  · intro h
    have hcond : (!hasKey "exp" m && !hasKey "expiresIn" m) = false := by
      rcases h with h | h <;> rw [h] <;> simp
    simp only [api_token, hcond, Bool.false_eq_true, if_false]

/-- C5 witness: a context without expiry keys is signed with
`expiresIn = "7d"` added; `{"exp": "1"}` is signed unchanged. -/
theorem claim_C5_witness :
    dictGet "expiresIn"
        (api_token "secret" (some [("foo", "bar")])).1.payload =
      some "7d" ∧
    (api_token "secret" (some [("exp", "1")])).1 =
      jwtEncode [("exp", "1")] "secret" "HS256" := by
  constructor
  · exact ((claim_C5_api_token_payload "secret" [("foo", "bar")]).1
      (by decide) (by decide)).2.1
  · exact (claim_C5_api_token_payload "secret" [("exp", "1")]).2.1
      (Or.inl (by decide))

/-- C6 counterexample: computing the token is not side-effect free — for
the stored mapping `{"foo": "bar"}` (no expiry keys), the mapping stored
after the computation differs from the supplied one: the default expiry
is assigned into the same dict object, not into a copy. -/
theorem claim_C6_counterexample :
    (api_token "secret" (some [("foo", "bar")])).2 ≠
      some [("foo", "bar")] := by
  decide

/-- C6 amended: when the default expiry is injected it is assigned into
the stored mapping itself, so afterwards the block's mapping contains
`expiresIn = "7d"`; a second computation then observes the expiry key as
present and returns the same token and state (the token value itself is
unaffected); a mapping already containing either expiry key is left
unchanged. -/
theorem claim_C6_amended_in_place_update (secret : String) (m : Dict) :
    (hasKey "exp" m = false → hasKey "expiresIn" m = false →
      (api_token secret (some m)).2 =
        some (dictSet "expiresIn" "7d" m) ∧
      hasKey "expiresIn" (dictSet "expiresIn" "7d" m) = true ∧
      api_token secret (api_token secret (some m)).2 =
        api_token secret (some m)) ∧
    ((hasKey "exp" m = true ∨ hasKey "expiresIn" m = true) →
      (api_token secret (some m)).2 = some m) := by
  constructor
  · intro hexp hein
    have hcond : (!hasKey "exp" m && !hasKey "expiresIn" m) = true := by
      rw [hexp, hein]; rfl
    have hein2 : hasKey "expiresIn" (dictSet "expiresIn" "7d" m) = true := by
      simp [hasKey, dictGet_dictSet_self]
    refine ⟨by simp only [api_token, hcond, if_true], hein2, ?_⟩
    have hcond2 :
        (!hasKey "exp" (dictSet "expiresIn" "7d" m) &&
          !hasKey "expiresIn" (dictSet "expiresIn" "7d" m)) = false := by
      rw [hein2]; simp
    simp only [api_token, hcond, if_true, hcond2, Bool.false_eq_true,
      if_false]
  · intro h
    have hcond : (!hasKey "exp" m && !hasKey "expiresIn" m) = false := by
      rcases h with h | h <;> rw [h] <;> simp
    simp only [api_token, hcond, Bool.false_eq_true, if_false]

/-- C6 amended witness: for `{"foo": "bar"}` the stored mapping after the
call is `{"foo": "bar", "expiresIn": "7d"}` and a second call is
idempotent on it. -/
theorem claim_C6_amended_witness :
    (api_token "secret" (some [("foo", "bar")])).2 =
      some [("foo", "bar"), ("expiresIn", "7d")] ∧
    api_token "secret" (api_token "secret" (some [("foo", "bar")])).2 =
      api_token "secret" (some [("foo", "bar")]) := by
  have h := (claim_C6_amended_in_place_update "secret" [("foo", "bar")]).1
    (by decide) (by decide)
  exact ⟨h.1.trans (by decide), h.2.2⟩

/-- C7 counterexample: `build_pre_aggregations` does not coerce a
non-positive `wait_time_between_api_calls` to 10 — with the value 0 a
poll attempt runs and the total slept time is 0, not 10. -/
theorem claim_C7_counterexample :
    (build_pre_aggregations 0 true ["t"] [[("t", "done")]]).sent.length
        = 1 ∧
    (build_pre_aggregations 0 true ["t"] [[("t", "done")]]).slept = 0 ∧
    (build_pre_aggregations 0 true ["t"] [[("t", "done")]]).slept ≠ 10 := by
  refine ⟨rfl, rfl, by decide⟩

/-- C7 amended: only `run_query` coerces `wait_time_between_api_calls`
to the default 10 when the supplied value is ≤ 0;
`build_pre_aggregations` uses the supplied value unchanged, sleeping it
once per poll attempt (so its sleep need not be positive). -/
theorem claim_C7_amended_coercion (w : Int) :
    (w ≤ 0 → run_query_wait_secs w = 10) ∧
    (0 < w → run_query_wait_secs w = w) ∧
    (∀ (waitFor : Bool) (tokens : List String)
        (rounds : List (List (String × String))),
      (build_pre_aggregations w waitFor tokens rounds).slept =
        w * (build_pre_aggregations w waitFor tokens rounds).sent.length) := by
  refine ⟨?_, ?_, ?_⟩
  · intro h
    simp [run_query_wait_secs]
    omega
  · intro h
    simp [run_query_wait_secs, h]
  · intro waitFor tokens rounds
    rcases waitFor with _ | _
    · simp [build_pre_aggregations]
    · simp only [build_pre_aggregations, Bool.not_true, if_false]
      exact buildLoop_slept_eq tokens w rounds _

/-- C7 amended witness: `run_query` coerces -3 to 10 and keeps 7; with
`wait = 0` a one-round build sleeps 0 in total. -/
theorem claim_C7_amended_witness :
    run_query_wait_secs (-3) = 10 ∧ run_query_wait_secs 7 = 7 ∧
    (build_pre_aggregations 0 true ["t"] [[("t", "done")]]).slept =
      0 * (build_pre_aggregations 0 true ["t"]
        [[("t", "done")]]).sent.length := by
  exact ⟨(claim_C7_amended_coercion (-3)).1 (by decide),
    (claim_C7_amended_coercion 7).2.1 (by decide),
    (claim_C7_amended_coercion 0).2.2 true ["t"] [[("t", "done")]]⟩

/-- C8: a `max_wait_time` of 0 is falsy in the loop guard, so it behaves
exactly like the absent/`None` sentinel: the run is identical to the
unbounded one and the exceeded-ceiling error is never raised. -/
theorem claim_C8_zero_max_wait_unbounded (w : Int) :
    (∀ (e : Int) (trace : List Response),
        getDataAux w (some 0) e trace = getDataAux w none e trace) ∧
    (∀ trace, getDataFromUrl w (some 0) trace =
        getDataFromUrl w none trace) ∧
    (∀ (e : Int) (trace : List Response) (m' : Option Int),
        (getDataAux w (some 0) e trace).result ≠
          .raised (ceilingMsg m')) := by
  refine ⟨fun e trace => getDataAux_zero_eq_none w trace e,
    fun trace => getDataAux_zero_eq_none w trace 0,
    fun e trace m' => getDataAux_not_truthy_no_ceiling w (some 0) rfl
      trace e m'⟩

/-- C8 witness: with `max_wait_time = 0` a continue-wait-then-success
script runs exactly as with no ceiling. -/
theorem claim_C8_witness :
    getDataFromUrl 2 (some 0)
        [⟨200, [("error", "Continue wait")], "OK"⟩,
         ⟨200, [("data", "x")], "OK"⟩] =
      getDataFromUrl 2 none
        [⟨200, [("error", "Continue wait")], "OK"⟩,
         ⟨200, [("data", "x")], "OK"⟩] :=
  (claim_C8_zero_max_wait_unbounded 2).2.1
    [⟨200, [("error", "Continue wait")], "OK"⟩,
     ⟨200, [("data", "x")], "OK"⟩]

/-- C9: endpoint resolution is a pure function of `(subdomain, url)`: a
truthy subdomain takes precedence and yields
`https://{subdomain}.cubecloud.dev/cubejs-api` plus the fixed suffixes
`/v1/load`, `/v1/sql`, `/v1/pre-aggregations/jobs`; otherwise the same
suffixes are appended to the base URL verbatim. -/
theorem claim_C9_endpoint_resolution (s : String) (hs : s ≠ "")
    (url : Option String) (u : String) :
    (getCubeBaseUrl (some s) url =
      "https://" ++ s ++ ".cubecloud.dev/cubejs-api") ∧
    (getQueryApiUrl (some s) url =
      "https://" ++ s ++ ".cubecloud.dev/cubejs-api/v1/load") ∧
    (getGeneratedSqlApiUrl (some s) url =
      "https://" ++ s ++ ".cubecloud.dev/cubejs-api/v1/sql") ∧
    (getPreAggregationsJobsApiUrl (some s) url =
      "https://" ++ s ++ ".cubecloud.dev/cubejs-api/v1/pre-aggregations/jobs") ∧
    (∀ (sub : Option String), pyStrTruthy sub = false →
      getQueryApiUrl sub (some u) = u ++ "/v1/load" ∧
      getGeneratedSqlApiUrl sub (some u) = u ++ "/v1/sql" ∧
      getPreAggregationsJobsApiUrl sub (some u) =
        u ++ "/v1/pre-aggregations/jobs") := by
  have htr : pyStrTruthy (some s) = true := by
    simp [pyStrTruthy, hs]
  have hbase : getCubeBaseUrl (some s) url =
      "https://" ++ s ++ ".cubecloud.dev" ++ "/cubejs-api" := by
    simp [getCubeBaseUrl, htr, cubejsCloudBaseUrl]
  refine ⟨?_, ?_, ?_, ?_, ?_⟩
  · rw [hbase, String.append_assoc ("https://" ++ s)]
    rfl
  · rw [getQueryApiUrl, hbase, String.append_assoc, String.append_assoc
      ("https://" ++ s)]
    rfl
  · rw [getGeneratedSqlApiUrl, hbase, String.append_assoc,
      String.append_assoc ("https://" ++ s)]
    rfl
  · rw [getPreAggregationsJobsApiUrl, hbase, String.append_assoc,
      String.append_assoc ("https://" ++ s)]
    rfl
  · intro sub hsub
    have hbase2 : getCubeBaseUrl sub (some u) = u := by
      simp [getCubeBaseUrl, hsub]
    exact ⟨by rw [getQueryApiUrl, hbase2],
      by rw [getGeneratedSqlApiUrl, hbase2],
      by rw [getPreAggregationsJobsApiUrl, hbase2]⟩

/-- C9 witness: the spec's round-trip examples — subdomain `acme` and
base URL `http://h/cubejs-system`. -/
theorem claim_C9_witness :
    getQueryApiUrl (some "acme") none =
      "https://acme.cubecloud.dev/cubejs-api/v1/load" ∧
    getQueryApiUrl none (some "http://h/cubejs-system") =
      "http://h/cubejs-system/v1/load" := by
  constructor
  · have h := (claim_C9_endpoint_resolution "acme" (by decide) none
      "http://h/cubejs-system").2.1
    rw [h]
    rfl
  · exact ((claim_C9_endpoint_resolution "acme" (by decide) none
      "http://h/cubejs-system").2.2.2.2 none rfl).1

/-- C10: when the primary `/load` fetch succeeds and
`include_generated_sql` is set, `get_data` runs the same
`_get_data_from_url` loop against the sql endpoint and returns the
primary body with the second response's `"sql"` field stored under key
`"sql"` (all other fields preserved); a failure of the second fetch
propagates; with the flag off the primary body is returned unmodified. -/
theorem claim_C10_sql_augmentation (w : Int) (m : Option Int)
    (loadTrace sqlTrace : List Response) (b : Dict)
    (hb : (getDataFromUrl w m loadTrace).result = .ok b) :
    (get_data w m false loadTrace sqlTrace = .ok b) ∧
    (∀ (b2 : Dict) (v : String),
        (getDataFromUrl w m sqlTrace).result = .ok b2 →
        dictGet "sql" b2 = some v →
        get_data w m true loadTrace sqlTrace = .ok (dictSet "sql" v b) ∧
        dictGet "sql" (dictSet "sql" v b) = some v ∧
        (∀ k, k ≠ "sql" → dictGet k (dictSet "sql" v b) = dictGet k b)) ∧
    (∀ msg, (getDataFromUrl w m sqlTrace).result = .raised msg →
        get_data w m true loadTrace sqlTrace = .raised msg) := by
  refine ⟨?_, ?_, ?_⟩
  · simp [get_data, hb]
  · intro b2 v hb2 hv
    refine ⟨?_, dictGet_dictSet_self _ _ b,
      fun k hk => dictGet_dictSet_ne _ k _ hk b⟩
    simp [get_data, hb, hb2, hv]
  · intro msg hmsg
    simp [get_data, hb, hmsg]

/-- C10 witness: a successful load body augmented with the sql endpoint's
`"sql"` value; and unchanged with the flag off. -/
theorem claim_C10_witness :
    get_data 1 none true [⟨200, [("data", "x")], "OK"⟩]
        [⟨200, [("sql", "SELECT 1")], "OK"⟩] =
      .ok [("data", "x"), ("sql", "SELECT 1")] ∧
    get_data 1 none false [⟨200, [("data", "x")], "OK"⟩]
        [⟨200, [("sql", "SELECT 1")], "OK"⟩] =
      .ok [("data", "x")] := by
  have h := claim_C10_sql_augmentation 1 none
    [⟨200, [("data", "x")], "OK"⟩] [⟨200, [("sql", "SELECT 1")], "OK"⟩]
    [("data", "x")] (by rfl)
  constructor
  · exact ((h.2.1 [("sql", "SELECT 1")] "SELECT 1" (by rfl) (by rfl)).1).trans
      (by rfl)
  · exact h.1

end PrefectCubejs
